import Mathlib

/-!
Shallow embedding of the distributed-lock core of the repository
(`src/redis_lock_test.py`, class `RedisDistributedLock`) and of the
result-aggregation helper (`src/race_condition_test.py`, class
`RaceConditionDetector`).

Modelling conventions:
* The Redis store is a partial map from keys to entries carrying the stored
  string value and an absolute expiry instant.  Time is discrete, measured in
  ticks of 0.01 s (one backoff sleep of the acquire loop); `ticksPerSecond`
  converts the second-valued lease (`timeout`) and the float-valued wait
  timeout into ticks.
* `redis.set(key, value, ex, nx=True)` becomes `redisSetNxEx`: it succeeds
  exactly when the key is absent or its entry has expired, and then installs
  the value with expiry `now + ex` seconds.
* The release Lua script ("delete key only if its current value equals the
  token") becomes `luaReleaseScript`, one atomic store-side operation.
* `uuid.uuid4()` is modelled by an externally supplied fresh token string:
  `newLock` (the `__init__` of `RedisDistributedLock`) receives the token as
  an argument; global uniqueness of uuid4 values becomes the hypothesis that
  distinct handles carry distinct tokens.
* Fallible operations return `Option`: the acquire loop is fuel-indexed and
  yields `none` when it has not terminated within the given fuel, and
  `RaceConditionDetector.analyze` yields `none` exactly where the Python code
  raises `ZeroDivisionError`.
-/

structure StoreEntry where
  value : String
  expiresAt : Nat
deriving Repr, DecidableEq

def Store : Type := String → Option StoreEntry

def emptyStore : Store := fun _ => none

def storeSet (s : Store) (k : String) (e : StoreEntry) : Store :=
  fun q => if q = k then some e else s q

def storeDel (s : Store) (k : String) : Store :=
  fun q => if q = k then none else s q

/-- Redis `GET` with passive expiry: an entry whose expiry instant has been
reached behaves as absent. -/
def storeGet (s : Store) (now : Nat) (k : String) : Option String :=
  match s k with
  | some e => if now < e.expiresAt then some e.value else none
  | none => none

/-- One model tick is 0.01 s, the backoff sleep of the acquire loop. -/
def ticksPerSecond : Nat := 100

/-- Model of `redis.set(key, value, ex=exSeconds, nx=True)`: set only if the key is
absent (or expired), with auto-expiry `exSeconds` seconds after `now`. -/
def redisSetNxEx (s : Store) (now : Nat) (k v : String) (exSeconds : Nat) :
    Bool × Store :=
  match s k with
  | some e =>
      if now < e.expiresAt then (false, s)
      else (true, storeSet s k ⟨v, now + ticksPerSecond * exSeconds⟩)
  | none => (true, storeSet s k ⟨v, now + ticksPerSecond * exSeconds⟩)

/-- The Lua script of `RedisDistributedLock.release`: delete `k` iff the
value currently stored there equals `v`, as one atomic operation. -/
def luaReleaseScript (s : Store) (now : Nat) (k v : String) : Store :=
  if storeGet s now k = some v then storeDel s k else s

structure RedisDistributedLock where
  lock_key : String
  timeout : Nat
  lock_value : String
  acquired : Bool
deriving Repr, DecidableEq

/-- Constructor `RedisDistributedLock.__init__`: prefixes the key with `"lock:"`, stores
the lease duration (`timeout`, seconds), draws the handle's token
(`lock_value`, modelling `str(uuid.uuid4())` by the supplied fresh string)
and starts not acquired. -/
def newLock (lockKeyArg : String) (timeout : Nat) (freshToken : String) :
    RedisDistributedLock :=
  { lock_key := "lock:" ++ lockKeyArg
    timeout := timeout
    lock_value := freshToken
    acquired := false }

/-- One iteration body of `acquire`: the single conditional set
`redis.set(self.lock_key, self.lock_value, ex=self.timeout, nx=True)`,
setting `self.acquired = True` on success. -/
def RedisDistributedLock.tryAcquire (l : RedisDistributedLock) (s : Store)
    (now : Nat) : Bool × RedisDistributedLock × Store :=
  let r := redisSetNxEx s now l.lock_key l.lock_value l.timeout
  if r.1 then (true, { l with acquired := true }, r.2) else (false, l, r.2)

/-- Seconds elapsed since `start`, i.e. `time.time() - start_time`. -/
def elapsedSeconds (start now : Nat) : ℚ :=
  ((now - start : Nat) : ℚ) / (ticksPerSecond : ℚ)

/-- The guard `if timeout and (time.time() - start_time) >= timeout:` —
Python truthiness makes both `None` and `0` skip the whole check. -/
def timeoutCheck (timeout : Option ℚ) (start now : Nat) : Bool :=
  match timeout with
  | none => false
  | some t => decide (¬ t = 0) && decide (t ≤ elapsedSeconds start now)

/-- The `while True:` loop of `RedisDistributedLock.acquire`, fuel-indexed.
`inter` is the interference of the other actors: the store they leave behind
while this actor sleeps 0.01 s between attempts.  Returns the updated handle,
the boolean result of `acquire`, the store and the instant of return; `none`
means the loop has not returned within `fuel` iterations. -/
def acquireLoop (l : RedisDistributedLock) (blocking : Bool)
    (timeout : Option ℚ) (inter : Store → Nat → Store) (start : Nat) :
    Nat → Store → Nat → Option (RedisDistributedLock × Bool × Store × Nat)
  | 0, _, _ => none
  | fuel + 1, s, now =>
    let r := l.tryAcquire s now
    if r.1 then some (r.2.1, true, r.2.2, now)
    else if blocking = false then some (l, false, r.2.2, now)
    else if timeoutCheck timeout start now then some (l, false, r.2.2, now)
    else acquireLoop l blocking timeout inter start fuel (inter r.2.2 now) (now + 1)

/-- Method `RedisDistributedLock.acquire(blocking, timeout)` started at instant
`now` (so `start_time = now`). -/
def RedisDistributedLock.acquire (l : RedisDistributedLock) (blocking : Bool)
    (timeout : Option ℚ) (inter : Store → Nat → Store) (fuel : Nat)
    (s : Store) (now : Nat) :
    Option (RedisDistributedLock × Bool × Store × Nat) :=
  acquireLoop l blocking timeout inter now fuel s now

/-- Method `RedisDistributedLock.release`: early return when not acquired, otherwise
run the Lua compare-and-delete script and clear `acquired`. -/
def RedisDistributedLock.release (l : RedisDistributedLock) (s : Store)
    (now : Nat) : RedisDistributedLock × Store :=
  if l.acquired = false then (l, s)
  else ({ l with acquired := false },
        luaReleaseScript s now l.lock_key l.lock_value)

/-- How the body of an `async with` block exits: normal return, a raised
exception, or task cancellation (in asyncio a `CancelledError` raised at an
await point, which also unwinds through `__aexit__`). -/
inductive ExitKind where
  | normal : ExitKind
  | error : ExitKind
  | cancelled : ExitKind
deriving Repr, DecidableEq

/-- Method `RedisDistributedLock.__aenter__`: `await self.acquire()` — blocking,
with no wait timeout — then return `self`. -/
def RedisDistributedLock.aenter (l : RedisDistributedLock)
    (inter : Store → Nat → Store) (fuel : Nat) (s : Store) (now : Nat) :
    Option (RedisDistributedLock × Store × Nat) :=
  (l.acquire true none inter fuel s now).map (fun r => (r.1, r.2.2.1, r.2.2.2))

/-- Method `RedisDistributedLock.__aexit__(exc_type, exc_val, exc_tb)`: it ignores
the exception information and runs `await self.release()` unconditionally. -/
def RedisDistributedLock.aexit (l : RedisDistributedLock) (s : Store)
    (now : Nat) (_exc : Option ExitKind) : RedisDistributedLock × Store :=
  l.release s now

/-- A protected block: from the handle and the store/instant at entry it
produces the store and instant at exit together with how it exited. -/
def ScopedBody : Type :=
  RedisDistributedLock → Store → Nat → Store × Nat × ExitKind

/-- Model of `async with RedisDistributedLock(...) as lock: body` — `__aenter__`,
then the body, then `__aexit__` with the body's exception information (none
on normal exit).  `none` means entry was still waiting for the lock when the
fuel ran out. -/
def scopedUse (l : RedisDistributedLock) (inter : Store → Nat → Store)
    (fuel : Nat) (s : Store) (now : Nat) (body : ScopedBody) :
    Option (RedisDistributedLock × Store × ExitKind) :=
  match l.aenter inter fuel s now with
  | none => none
  | some r =>
      let b := body r.1 r.2.1 r.2.2
      let exc : Option ExitKind :=
        if b.2.2 = ExitKind.normal then none else some b.2.2
      let q := r.1.aexit b.1 b.2.1 exc
      some (q.1, q.2, b.2.2)

/-! The concurrent system.

Interleaving of atomic store operations issued by a finite family of
handles, plus the passage of time (which realises passive expiry).  Each
atomic step is exactly one round trip of the Python code: one conditional
set (`tryAcquire`) or one release. -/

structure SysState (m : Nat) where
  store : Store
  locks : Fin m → RedisDistributedLock
  now : Nat

/-- Handle `i` performs one conditional-set attempt of its acquire loop. -/
def sysAttempt {m : Nat} (st : SysState m) (i : Fin m) : SysState m :=
  let r := (st.locks i).tryAcquire st.store st.now
  { st with store := r.2.2, locks := Function.update st.locks i r.2.1 }

/-- Handle `i` performs `release`. -/
def sysRelease {m : Nat} (st : SysState m) (i : Fin m) : SysState m :=
  let r := (st.locks i).release st.store st.now
  { st with store := r.2, locks := Function.update st.locks i r.1 }

/-- Time passes by one tick; entries whose expiry is reached lapse. -/
def sysTick {m : Nat} (st : SysState m) : SysState m :=
  { st with now := st.now + 1 }

inductive SysStep {m : Nat} : SysState m → SysState m → Prop where
  | attempt (st : SysState m) (i : Fin m) : SysStep st (sysAttempt st i)
  | rel (st : SysState m) (i : Fin m) : SysStep st (sysRelease st i)
  | tick (st : SysState m) : SysStep st (sysTick st)

def SysReachable {m : Nat} (init st : SysState m) : Prop :=
  Relation.ReflTransGen SysStep init st

/-- Handle `l` holds the lock in state `st`: its `acquired` flag is set and
the store entry at its key is unexpired and carries its token. -/
def holdsLock {m : Nat} (st : SysState m) (l : RedisDistributedLock) : Prop :=
  l.acquired = true ∧ storeGet st.store st.now l.lock_key = some l.lock_value

/-- Global uniqueness of the uuid4 tokens: distinct handles carry distinct
`lock_value`s. -/
def TokensDistinct {m : Nat} (st : SysState m) : Prop :=
  ∀ i j : Fin m, i ≠ j → (st.locks i).lock_value ≠ (st.locks j).lock_value

/-! Model of RaceConditionDetector (`src/race_condition_test.py`). -/

/-- One entry of `detector.results`; `analyze` reads only the truthiness of
`r.get("success")`. -/
structure ResultRecord where
  success : Bool
deriving Repr, DecidableEq

structure RaceConditionDetector where
  results : List ResultRecord
  errors : List String
deriving Repr, DecidableEq

structure AnalyzeReport where
  total_attempts : Nat
  successful : Nat
  failed : Nat
  exceptions : Nat
  race_conditions_detected : Bool
  error_rate : ℚ
deriving Repr, DecidableEq

/-- Method `RaceConditionDetector.analyze`.  The Python division
`(failed + exceptions) / (len(self.results) + len(self.errors))` raises
`ZeroDivisionError` when the denominator is `0`; that error is modelled as
`none`. -/
def RaceConditionDetector.analyze (d : RaceConditionDetector) :
    Option AnalyzeReport :=
  let successful := (d.results.filter (fun r => r.success)).length
  let failed := d.results.length - successful
  let exceptions := d.errors.length
  let total := d.results.length + d.errors.length
  if total = 0 then none
  else
    some
      { total_attempts := total
        successful := successful
        failed := failed
        exceptions := exceptions
        race_conditions_detected := decide (1 < successful)
        error_rate := ((failed : ℚ) + (exceptions : ℚ)) / (total : ℚ) }

/-- A concrete acquired handle used by the witnesses. -/
def wLockA : RedisDistributedLock :=
  { lock_key := "lock:a", timeout := 1, lock_value := "tokA", acquired := true }

/-- A store in which a different holder's token sits under `wLockA`'s key. -/
def wStoreOther : Store := storeSet emptyStore "lock:a" ⟨"tokB", 100⟩

/-- A store touching only a key foreign to `wLockA`. -/
def wStoreOther2 : Store := storeSet emptyStore "lock:x" ⟨"v", 7⟩

/-- Witness interference: some other actor keeps re-asserting an unexpired
entry under `"lock:a"` during every backoff sleep. -/
def wInter : Store → Nat → Store :=
  fun s2 n2 => storeSet s2 ((newLock "a" 1 "t").lock_key) ⟨"tokB", n2 + 2⟩

/-- Witness body that exits normally, leaving store and time unchanged. -/
def wBodyNormal : ScopedBody := fun _ st n => (st, n, ExitKind.normal)

/-- Witness body with the same store/time effect but an error exit. -/
def wBodyError : ScopedBody := fun _ st n => (st, n, ExitKind.error)

/-- Witness system state: two handles contending for key `"a"` with
distinct fresh tokens, over the empty store. -/
def wInit : SysState 2 :=
  { store := emptyStore
    locks := fun i => if i = 0 then newLock "a" 1 "t0" else newLock "a" 1 "t1"
    now := 0 }

/-! Helper lemmas about the store operations. -/

lemma storeGet_isSome_iff (s : Store) (now : Nat) (k : String) :
    (storeGet s now k).isSome = true ↔
      ∃ e, s k = some e ∧ now < e.expiresAt := by
  unfold storeGet
  cases hk : s k with
  | none => simp
  | some e =>
      by_cases hlt : now < e.expiresAt
      · simp [hlt]
      · simp [hlt]

lemma tryAcquire_of_busy (l : RedisDistributedLock) (s : Store) (now : Nat)
    (h : (storeGet s now l.lock_key).isSome = true) :
    l.tryAcquire s now = (false, l, s) := by
  obtain ⟨e, he, hlt⟩ := (storeGet_isSome_iff s now l.lock_key).mp h
  unfold RedisDistributedLock.tryAcquire redisSetNxEx
  simp [he, hlt]

lemma tryAcquire_of_free (l : RedisDistributedLock) (s : Store) (now : Nat)
    (h : storeGet s now l.lock_key = none) :
    l.tryAcquire s now =
      (true, { l with acquired := true },
       storeSet s l.lock_key
         ⟨l.lock_value, now + ticksPerSecond * l.timeout⟩) := by
  unfold RedisDistributedLock.tryAcquire redisSetNxEx
  unfold storeGet at h
  cases hk : s l.lock_key with
  | none => simp [hk]
  | some e =>
      rw [hk] at h
      by_cases hlt : now < e.expiresAt
      · simp [hlt] at h
      · simp [hk, hlt]

lemma tryAcquire_fst_eq_of_busy_decision (l : RedisDistributedLock)
    (s : Store) (now : Nat) :
    (l.tryAcquire s now).1 = !(storeGet s now l.lock_key).isSome := by
  cases h : (storeGet s now l.lock_key).isSome with
  | true => rw [tryAcquire_of_busy l s now h]; rfl
  | false =>
      have hnone : storeGet s now l.lock_key = none :=
        Option.not_isSome_iff_eq_none.mp (by simp [h])
      rw [tryAcquire_of_free l s now hnone]
      rfl

lemma tryAcquire_lock_fields (l : RedisDistributedLock) (s : Store)
    (now : Nat) :
    ((l.tryAcquire s now).2.1).lock_key = l.lock_key ∧
      ((l.tryAcquire s now).2.1).lock_value = l.lock_value ∧
      ((l.tryAcquire s now).2.1).timeout = l.timeout := by
  unfold RedisDistributedLock.tryAcquire
  by_cases h : (redisSetNxEx s now l.lock_key l.lock_value l.timeout).1 = true
  · simp [h]
  · simp [h]

lemma release_lock_fields (l : RedisDistributedLock) (s : Store) (now : Nat) :
    ((l.release s now).1).lock_key = l.lock_key ∧
      ((l.release s now).1).lock_value = l.lock_value ∧
      ((l.release s now).1).timeout = l.timeout := by
  unfold RedisDistributedLock.release
  cases l.acquired <;> simp

lemma release_acquired_false (l : RedisDistributedLock) (s : Store)
    (now : Nat) : ((l.release s now).1).acquired = false := by
  unfold RedisDistributedLock.release
  cases h : l.acquired <;> simp [h]

lemma release_of_not_acquired (l : RedisDistributedLock) (s : Store)
    (now : Nat) (h : l.acquired = false) : l.release s now = (l, s) := by
  unfold RedisDistributedLock.release
  simp [h]

lemma tryAcquire_frame (l : RedisDistributedLock) (s : Store) (now : Nat)
    (k : String) (h : k ≠ l.lock_key) :
    ((l.tryAcquire s now).2.2) k = s k := by
  unfold RedisDistributedLock.tryAcquire redisSetNxEx
  cases hk : s l.lock_key with
  | none => simp [storeSet, h]
  | some e =>
      by_cases hlt : now < e.expiresAt
      · simp [hlt]
      · simp [hlt, storeSet, h]

lemma release_frame (l : RedisDistributedLock) (s : Store) (now : Nat)
    (k : String) (h : k ≠ l.lock_key) :
    ((l.release s now).2) k = s k := by
  unfold RedisDistributedLock.release luaReleaseScript
  cases hacq : l.acquired with
  | false => simp
  | true =>
      by_cases hg : storeGet s now l.lock_key = some l.lock_value
      · simp [hg, storeDel, h]
      · simp [hg]

/-! Claims. -/

/-- Claim C2 — safe release: for an acquired handle, `release` performs exactly
the single atomic conditional delete — the store entry at the handle's key
is deleted iff the currently stored (unexpired) value equals the handle's
token — and when a different holder's token is stored the whole store is
left untouched. -/
theorem claim_C2_safe_release (l : RedisDistributedLock) (s : Store)
    (now : Nat) (h : l.acquired = true) :
    (l.release s now).2 =
        (if storeGet s now l.lock_key = some l.lock_value
         then storeDel s l.lock_key else s) ∧
      (∀ v, storeGet s now l.lock_key = some v → v ≠ l.lock_value →
        (l.release s now).2 = s) := by
  constructor
  · unfold RedisDistributedLock.release luaReleaseScript
    simp [h]
  · intro v hv hne
    unfold RedisDistributedLock.release luaReleaseScript
    have hns : ¬ storeGet s now l.lock_key = some l.lock_value := by
      rw [hv]
      exact fun hc => hne (Option.some.inj hc)
    simp [h, hns]

theorem claim_C2_safe_release_witness :
    wLockA.acquired = true ∧
      ((wLockA.release wStoreOther 5).2 =
          (if storeGet wStoreOther 5 wLockA.lock_key = some wLockA.lock_value
           then storeDel wStoreOther wLockA.lock_key else wStoreOther) ∧
        ∀ v, storeGet wStoreOther 5 wLockA.lock_key = some v →
          v ≠ wLockA.lock_value → (wLockA.release wStoreOther 5).2 = wStoreOther) :=
  ⟨rfl, claim_C2_safe_release wLockA wStoreOther 5 rfl⟩

/-- Claim C4 — idempotent release: after any `release` the handle's `acquired`
flag is false; a second `release` right after is a complete no-op on both
handle and store (and raises nothing — it is total); and a `release` while a
different holder's token is stored alters nothing in the store. -/
theorem claim_C4_idempotent_release (l : RedisDistributedLock) (s : Store)
    (now now2 : Nat) :
    ((l.release s now).1).acquired = false ∧
      ((l.release s now).1).release ((l.release s now).2) now2 =
        l.release s now ∧
      (∀ v, storeGet s now l.lock_key = some v → v ≠ l.lock_value →
        (l.release s now).2 = s) := by
  refine ⟨release_acquired_false l s now, ?_, ?_⟩
  · rw [release_of_not_acquired _ _ _ (release_acquired_false l s now)]
  · intro v hv hne
    unfold RedisDistributedLock.release luaReleaseScript
    have hns : ¬ storeGet s now l.lock_key = some l.lock_value := by
      rw [hv]
      exact fun hc => hne (Option.some.inj hc)
    cases hacq : l.acquired with
    | false => simp
    | true => simp [hns]

theorem claim_C4_idempotent_release_witness :
    storeGet wStoreOther 5 wLockA.lock_key = some "tokB" ∧
      (((wLockA.release wStoreOther 5).1).acquired = false ∧
        ((wLockA.release wStoreOther 5).1).release
            ((wLockA.release wStoreOther 5).2) 6 =
          wLockA.release wStoreOther 5 ∧
        ∀ v, storeGet wStoreOther 5 wLockA.lock_key = some v →
          v ≠ wLockA.lock_value → (wLockA.release wStoreOther 5).2 = wStoreOther) :=
  ⟨by decide, claim_C4_idempotent_release wLockA wStoreOther 5 6⟩

/-- Claim C6 — expiry recovery: acquiring on a free key installs the handle's
token with expiry exactly `leaseDuration` (`timeout` seconds, i.e.
`ticksPerSecond * timeout` ticks) after the acquisition instant, and a
second actor's conditional set on that key succeeds exactly from that expiry
instant on — never earlier, and at every poll from expiry onwards. -/
theorem claim_C6_expiry_recovery (la lb : RedisDistributedLock) (s : Store)
    (t0 : Nat) (hkey : lb.lock_key = la.lock_key)
    (hfree : storeGet s t0 la.lock_key = none) :
    (la.tryAcquire s t0).1 = true ∧
      ((la.tryAcquire s t0).2.2) la.lock_key =
        some ⟨la.lock_value, t0 + ticksPerSecond * la.timeout⟩ ∧
      ∀ now, ((lb.tryAcquire ((la.tryAcquire s t0).2.2) now).1 = true ↔
        t0 + ticksPerSecond * la.timeout ≤ now) := by
  have hstep := tryAcquire_of_free la s t0 hfree
  have hset : (storeSet s la.lock_key
      ⟨la.lock_value, t0 + ticksPerSecond * la.timeout⟩) la.lock_key =
      some ⟨la.lock_value, t0 + ticksPerSecond * la.timeout⟩ := by
    unfold storeSet
    simp
  have hs1 : (la.tryAcquire s t0).2.2 =
      storeSet s la.lock_key
        ⟨la.lock_value, t0 + ticksPerSecond * la.timeout⟩ := by
    rw [hstep]
  have hfst : (la.tryAcquire s t0).1 = true := by
    rw [hstep]
  refine ⟨hfst, ?_, ?_⟩
  · rw [hs1]
    exact hset
  intro now
  rw [tryAcquire_fst_eq_of_busy_decision, hkey, hs1]
  unfold storeGet
  rw [hset]
  by_cases hlt : now < t0 + ticksPerSecond * la.timeout
  all_goals simp [hlt]
  all_goals omega

theorem claim_C6_expiry_recovery_witness :
    (newLock "r" 2 "tb").lock_key = (newLock "r" 2 "ta").lock_key ∧
      storeGet emptyStore 0 (newLock "r" 2 "ta").lock_key = none ∧
      (((newLock "r" 2 "ta").tryAcquire emptyStore 0).1 = true ∧
        (((newLock "r" 2 "ta").tryAcquire emptyStore 0).2.2)
            (newLock "r" 2 "ta").lock_key =
          some ⟨(newLock "r" 2 "ta").lock_value,
            0 + ticksPerSecond * (newLock "r" 2 "ta").timeout⟩ ∧
        ∀ now, (((newLock "r" 2 "tb").tryAcquire
            (((newLock "r" 2 "ta").tryAcquire emptyStore 0).2.2) now).1 = true ↔
          0 + ticksPerSecond * (newLock "r" 2 "ta").timeout ≤ now)) :=
  ⟨rfl, rfl, claim_C6_expiry_recovery (newLock "r" 2 "ta") (newLock "r" 2 "tb")
    emptyStore 0 rfl rfl⟩

/-- Claim C8 — independence of distinct keys: the constructor derives the store
key as `"lock:" ++ key`; one conditional-set attempt and `release` leave
every other store key unchanged; and the outcome of an attempt depends only
on the store's content at the lock's own key. -/
theorem claim_C8_key_independence (key freshToken : String) (t : Nat)
    (l : RedisDistributedLock) (s s2 : Store) (now : Nat) :
    (newLock key t freshToken).lock_key = "lock:" ++ key ∧
      (∀ k, k ≠ l.lock_key → ((l.tryAcquire s now).2.2) k = s k) ∧
      (∀ k, k ≠ l.lock_key → ((l.release s now).2) k = s k) ∧
      (s l.lock_key = s2 l.lock_key →
        (l.tryAcquire s now).1 = (l.tryAcquire s2 now).1) := by
  refine ⟨rfl, fun k hk => tryAcquire_frame l s now k hk,
    fun k hk => release_frame l s now k hk, fun hs => ?_⟩
  rw [tryAcquire_fst_eq_of_busy_decision, tryAcquire_fst_eq_of_busy_decision]
  unfold storeGet
  rw [hs]

theorem claim_C8_key_independence_witness :
    emptyStore wLockA.lock_key = wStoreOther2 wLockA.lock_key ∧
      ((newLock "a" 1 "tokA").lock_key = "lock:" ++ "a" ∧
        (∀ k, k ≠ wLockA.lock_key →
          ((wLockA.tryAcquire emptyStore 0).2.2) k = emptyStore k) ∧
        (∀ k, k ≠ wLockA.lock_key →
          ((wLockA.release emptyStore 0).2) k = emptyStore k) ∧
        (emptyStore wLockA.lock_key = wStoreOther2 wLockA.lock_key →
          (wLockA.tryAcquire emptyStore 0).1 =
            (wLockA.tryAcquire wStoreOther2 0).1)) :=
  ⟨by decide, claim_C8_key_independence "a" "tokA" 1 wLockA emptyStore
    wStoreOther2 0⟩

/-- Claim C7, counterexample.  The claim "every call to acquire generates a
fresh, unique token … no two acquire calls (on the same handle or on
different handles) ever install the same token value for a key" is false on
the code: the token is drawn once in `__init__`, so one handle that
acquires, releases, and acquires again (exactly what
`test_basic_distributed_lock` does with `lock2`) installs the identical
token value "t" twice for key `"lock:a"`. -/
theorem claim_C7_counterexample :
    ((newLock "a" 1 "t").tryAcquire emptyStore 0).1 = true ∧
      (((newLock "a" 1 "t").tryAcquire emptyStore 0).2.2) "lock:a" =
        some ⟨"t", 100⟩ ∧
      ((((newLock "a" 1 "t").tryAcquire emptyStore 0).2.1).release
          (((newLock "a" 1 "t").tryAcquire emptyStore 0).2.2) 0).2 "lock:a" =
        none ∧
      (((((newLock "a" 1 "t").tryAcquire emptyStore 0).2.1).release
            (((newLock "a" 1 "t").tryAcquire emptyStore 0).2.2) 0).1.tryAcquire
          ((((newLock "a" 1 "t").tryAcquire emptyStore 0).2.1).release
            (((newLock "a" 1 "t").tryAcquire emptyStore 0).2.2) 0).2 5).1 =
        true ∧
      ((((((newLock "a" 1 "t").tryAcquire emptyStore 0).2.1).release
            (((newLock "a" 1 "t").tryAcquire emptyStore 0).2.2) 0).1.tryAcquire
          ((((newLock "a" 1 "t").tryAcquire emptyStore 0).2.1).release
            (((newLock "a" 1 "t").tryAcquire emptyStore 0).2.2) 0).2 5).2.2)
          "lock:a" =
        some ⟨"t", 105⟩ := by
  decide

/-- Claim C7 as amended — fresh token per handle: `__init__` draws the token once
(`lock_value`, modelling `str(uuid.uuid4())`), every conditional set of
`acquire` installs exactly that handle token (so acquire calls on handles
with distinct fresh tokens never install the same value), and neither an
acquire attempt nor a release ever changes a handle's token — repeated
acquire calls on one handle reuse it. -/
theorem claim_C7_fresh_token_per_handle (key k2 freshToken tok2 : String)
    (t t2 : Nat) (s : Store) (now : Nat) (l : RedisDistributedLock)
    (hne : freshToken ≠ tok2) :
    (newLock key t freshToken).lock_value = freshToken ∧
      (newLock key t freshToken).lock_value ≠ (newLock k2 t2 tok2).lock_value ∧
      (((newLock key t freshToken).tryAcquire s now).1 = true →
        (((newLock key t freshToken).tryAcquire s now).2.2)
            ((newLock key t freshToken).lock_key) =
          some ⟨freshToken, now + ticksPerSecond * t⟩) ∧
      ((l.tryAcquire s now).2.1).lock_value = l.lock_value ∧
      ((l.release s now).1).lock_value = l.lock_value := by
  refine ⟨rfl, hne, ?_, (tryAcquire_lock_fields l s now).2.1,
    (release_lock_fields l s now).2.1⟩
  intro hsucc
  have hbusy := tryAcquire_fst_eq_of_busy_decision (newLock key t freshToken) s now
  rw [hsucc] at hbusy
  have hfree : storeGet s now ((newLock key t freshToken).lock_key) = none := by
    cases hg : storeGet s now ((newLock key t freshToken).lock_key) with
    | none => rfl
    | some v =>
        rw [hg] at hbusy
        simp at hbusy
  rw [tryAcquire_of_free _ _ _ hfree]
  unfold storeSet
  simp
  exact ⟨rfl, Or.inl rfl⟩

theorem claim_C7_fresh_token_per_handle_witness :
    ("t1" : String) ≠ "t2" ∧
      ((newLock "a" 1 "t1").lock_value = "t1" ∧
        (newLock "a" 1 "t1").lock_value ≠ (newLock "b" 1 "t2").lock_value ∧
        (((newLock "a" 1 "t1").tryAcquire emptyStore 0).1 = true →
          (((newLock "a" 1 "t1").tryAcquire emptyStore 0).2.2)
              ((newLock "a" 1 "t1").lock_key) =
            some ⟨"t1", 0 + ticksPerSecond * 1⟩) ∧
        ((wLockA.tryAcquire emptyStore 0).2.1).lock_value = wLockA.lock_value ∧
        ((wLockA.release emptyStore 0).1).lock_value = wLockA.lock_value) :=
  ⟨by decide, claim_C7_fresh_token_per_handle "a" "b" "t1" "t2" 1 1 emptyStore
    0 wLockA (by decide)⟩

/-- Claim C10 — `RaceConditionDetector.analyze` divides by
`len(results) + len(errors)`: on a detector with no recorded results and no
recorded errors it raises `ZeroDivisionError` (modelled as `none`), and with
at least one recorded result or error it is well defined. -/
theorem claim_C10_analyze_division (d : RaceConditionDetector) :
    (RaceConditionDetector.analyze ⟨[], []⟩ = none) ∧
      (d.results.length + d.errors.length ≠ 0 → (d.analyze).isSome = true) := by
  constructor
  · rfl
  · intro hd
    unfold RaceConditionDetector.analyze
    simp [hd]

/-! Lemmas about the acquire loop. -/

lemma timeoutCheck_none (start now : Nat) :
    timeoutCheck none start now = false := rfl

lemma timeoutCheck_zero (start now : Nat) :
    timeoutCheck (some 0) start now = false := by
  unfold timeoutCheck
  simp

lemma acquireLoop_busy_step (l : RedisDistributedLock) (blocking : Bool)
    (timeout : Option ℚ) (inter : Store → Nat → Store) (start fuel : Nat)
    (s : Store) (now : Nat)
    (hb : (storeGet s now l.lock_key).isSome = true) :
    acquireLoop l blocking timeout inter start (fuel + 1) s now =
      if blocking = false then some (l, false, s, now)
      else if timeoutCheck timeout start now then some (l, false, s, now)
      else acquireLoop l blocking timeout inter start fuel (inter s now)
        (now + 1) := by
  conv_lhs => unfold acquireLoop
  rw [tryAcquire_of_busy l s now hb]
  simp

lemma acquireLoop_free_step (l : RedisDistributedLock) (blocking : Bool)
    (timeout : Option ℚ) (inter : Store → Nat → Store) (start fuel : Nat)
    (s : Store) (now : Nat)
    (hf : storeGet s now l.lock_key = none) :
    acquireLoop l blocking timeout inter start (fuel + 1) s now =
      some ({ l with acquired := true }, true,
        storeSet s l.lock_key
          ⟨l.lock_value, now + ticksPerSecond * l.timeout⟩, now) := by
  unfold acquireLoop
  rw [tryAcquire_of_free l s now hf]
  simp

/-- Under persistent contention, the blocking loop with no wait timeout
never returns, whatever the fuel. -/
lemma acquireLoop_contention_none (l : RedisDistributedLock)
    (inter : Store → Nat → Store) (start : Nat)
    (hcont : ∀ s2 n2, (storeGet s2 n2 l.lock_key).isSome = true →
      (storeGet (inter s2 n2) (n2 + 1) l.lock_key).isSome = true) :
    ∀ fuel s now, (storeGet s now l.lock_key).isSome = true →
      acquireLoop l true none inter start fuel s now = none := by
  intro fuel
  induction fuel with
  | zero => intro s now _; rfl
  | succ k ih =>
      intro s now hb
      rw [acquireLoop_busy_step l true none inter start k s now hb]
      simp [timeoutCheck_none]
      exact ih (inter s now) (now + 1) (hcont s now hb)

/-- Under persistent contention, the blocking loop with a nonzero wait
timeout `t` returns not-acquired once `ceil (t * 100)` ticks have passed
since `start`. -/
lemma acquireLoop_timeout_returns (l : RedisDistributedLock)
    (inter : Store → Nat → Store) (start : Nat) (t : ℚ) (ht : 0 < t)
    (hcont : ∀ s2 n2, (storeGet s2 n2 l.lock_key).isSome = true →
      (storeGet (inter s2 n2) (n2 + 1) l.lock_key).isSome = true) :
    ∀ k s now, start ≤ now →
      (storeGet s now l.lock_key).isSome = true →
      start + Nat.ceil (t * 100) ≤ now + k →
      ∃ q m, acquireLoop l true (some t) inter start (k + 1) s now =
        some (l, false, q, m) := by
  intro k
  induction k with
  | zero =>
      intro s now hle hb hbound
      have hcheck : timeoutCheck (some t) start now = true := by
        unfold timeoutCheck
        have h1 : Nat.ceil (t * 100) ≤ now - start := by omega
        have h2 : t * 100 ≤ ((now - start : Nat) : ℚ) := by
          exact_mod_cast Nat.ceil_le.mp h1
        have h3 : t ≤ elapsedSeconds start now := by
          unfold elapsedSeconds
          rw [le_div_iff₀ (by norm_num [ticksPerSecond] : (0 : ℚ) < (ticksPerSecond : ℚ))]
          simpa [ticksPerSecond] using h2
        simp [ht.ne', h3]
      rw [acquireLoop_busy_step l true (some t) inter start 0 s now hb]
      simp [hcheck]
  | succ k ih =>
      intro s now hle hb hbound
      by_cases hcheck : timeoutCheck (some t) start now = true
      · rw [acquireLoop_busy_step l true (some t) inter start (k + 1) s now hb]
        simp [hcheck]
      · rw [acquireLoop_busy_step l true (some t) inter start (k + 1) s now hb]
        simp [hcheck]
        exact ih (inter s now) (now + 1) (by omega) (hcont s now hb) (by omega)

/-- Claim C3 — acquire failure path: with the key continuously held by others,
a non-blocking `acquire` returns not-acquired at once — one conditional-set
attempt, store untouched, return instant equal to the call instant,
independent of the fuel and of the wait timeout; a blocking `acquire` with
no wait timeout retries forever (no fuel makes it return); a blocking
`acquire` with a positive wait timeout `t` returns not-acquired for some
fuel; and whenever an attempt finds the key free, `acquire` returns a held
handle at that very attempt. -/
theorem claim_C3_acquire_failure_path (l : RedisDistributedLock)
    (inter : Store → Nat → Store) (s : Store) (now : Nat) (t : ℚ)
    (hcont : ∀ s2 n2, (storeGet s2 n2 l.lock_key).isSome = true →
      (storeGet (inter s2 n2) (n2 + 1) l.lock_key).isSome = true)
    (hb : (storeGet s now l.lock_key).isSome = true) (ht : 0 < t) :
    (∀ fuel timeout, l.acquire false timeout inter (fuel + 1) s now =
        some (l, false, s, now)) ∧
      (∀ fuel, l.acquire true none inter fuel s now = none) ∧
      (∃ fuel q m, l.acquire true (some t) inter fuel s now =
        some (l, false, q, m)) ∧
      (∀ fuel timeout blocking s2 n2, storeGet s2 n2 l.lock_key = none →
        l.acquire blocking timeout inter (fuel + 1) s2 n2 =
          some ({ l with acquired := true }, true,
            storeSet s2 l.lock_key
              ⟨l.lock_value, n2 + ticksPerSecond * l.timeout⟩, n2)) := by
  refine ⟨?_, ?_, ?_, ?_⟩
  · intro fuel timeout
    unfold RedisDistributedLock.acquire
    rw [acquireLoop_busy_step l false timeout inter now fuel s now hb]
    simp
  · intro fuel
    exact acquireLoop_contention_none l inter now hcont fuel s now hb
  · obtain ⟨q, m, hq⟩ := acquireLoop_timeout_returns l inter now t ht hcont
      (Nat.ceil (t * 100)) s now le_rfl hb (by omega)
    exact ⟨Nat.ceil (t * 100) + 1, q, m, hq⟩
  · intro fuel timeout blocking s2 n2 hf
    unfold RedisDistributedLock.acquire
    exact acquireLoop_free_step l blocking timeout inter n2 fuel s2 n2 hf

theorem claim_C10_analyze_division_witness :
    (⟨[⟨true⟩], []⟩ : RaceConditionDetector).results.length +
        (⟨[⟨true⟩], []⟩ : RaceConditionDetector).errors.length ≠ 0 ∧
      (RaceConditionDetector.analyze ⟨[], []⟩ = none ∧
        ((⟨[⟨true⟩], []⟩ : RaceConditionDetector).analyze).isSome = true) :=
  ⟨by decide, (claim_C10_analyze_division ⟨[⟨true⟩], []⟩).1,
    (claim_C10_analyze_division ⟨[⟨true⟩], []⟩).2 (by decide)⟩

lemma wInterCont : ∀ s2 n2,
    (storeGet s2 n2 ((newLock "a" 1 "t").lock_key)).isSome = true →
    (storeGet (wInter s2 n2) (n2 + 1) ((newLock "a" 1 "t").lock_key)).isSome =
      true := by
  intro s2 n2 _
  unfold wInter storeGet storeSet
  simp

theorem claim_C3_acquire_failure_path_witness :
    (storeGet wStoreOther 0 ((newLock "a" 1 "t").lock_key)).isSome = true ∧
      (0 : ℚ) < 1 ∧
      ((∀ fuel timeout,
          (newLock "a" 1 "t").acquire false timeout wInter (fuel + 1)
              wStoreOther 0 =
            some (newLock "a" 1 "t", false, wStoreOther, 0)) ∧
        (∀ fuel, (newLock "a" 1 "t").acquire true none wInter fuel
            wStoreOther 0 = none) ∧
        (∃ fuel q m, (newLock "a" 1 "t").acquire true (some 1) wInter fuel
            wStoreOther 0 = some (newLock "a" 1 "t", false, q, m)) ∧
        (∀ fuel timeout blocking s2 n2,
          storeGet s2 n2 ((newLock "a" 1 "t").lock_key) = none →
          (newLock "a" 1 "t").acquire blocking timeout wInter (fuel + 1) s2 n2 =
            some ({ newLock "a" 1 "t" with acquired := true }, true,
              storeSet s2 ((newLock "a" 1 "t").lock_key)
                ⟨(newLock "a" 1 "t").lock_value,
                  n2 + ticksPerSecond * (newLock "a" 1 "t").timeout⟩, n2))) :=
  ⟨by decide, by norm_num,
    claim_C3_acquire_failure_path (newLock "a" 1 "t") wInter wStoreOther 0 1
      wInterCont (by decide) (by norm_num)⟩

lemma acquireLoop_timeout_zero (l : RedisDistributedLock) (blocking : Bool)
    (inter : Store → Nat → Store) (start : Nat) :
    ∀ fuel s now, acquireLoop l blocking (some 0) inter start fuel s now =
      acquireLoop l blocking none inter start fuel s now := by
  intro fuel
  induction fuel with
  | zero => intro s now; rfl
  | succ k ih =>
      intro s now
      cases hg : (storeGet s now l.lock_key).isSome with
      | true =>
          rw [acquireLoop_busy_step l blocking (some 0) inter start k s now hg,
            acquireLoop_busy_step l blocking none inter start k s now hg,
            timeoutCheck_zero, timeoutCheck_none, ih]
      | false =>
          have hf : storeGet s now l.lock_key = none :=
            Option.not_isSome_iff_eq_none.mp (by simp [hg])
          rw [acquireLoop_free_step l blocking (some 0) inter start k s now hf,
            acquireLoop_free_step l blocking none inter start k s now hf]

/-- Claim C9 — a wait timeout of `0` is treated exactly like an unset wait
timeout: the guard `if timeout and ...` requires a truthy value, so the
whole `acquire` function coincides for `timeout = 0` and `timeout = None`
on every input, and in particular under persistent contention a blocking
acquire with timeout `0` never returns, for any fuel. -/
theorem claim_C9_zero_wait_timeout (l : RedisDistributedLock)
    (inter : Store → Nat → Store) :
    (∀ blocking fuel s now,
        l.acquire blocking (some 0) inter fuel s now =
          l.acquire blocking none inter fuel s now) ∧
      ((∀ s2 n2, (storeGet s2 n2 l.lock_key).isSome = true →
          (storeGet (inter s2 n2) (n2 + 1) l.lock_key).isSome = true) →
        ∀ fuel s now, (storeGet s now l.lock_key).isSome = true →
          l.acquire true (some 0) inter fuel s now = none) := by
  constructor
  · intro blocking fuel s now
    unfold RedisDistributedLock.acquire
    exact acquireLoop_timeout_zero l blocking inter now fuel s now
  · intro hcont fuel s now hb
    unfold RedisDistributedLock.acquire
    rw [acquireLoop_timeout_zero l true inter now fuel s now]
    exact acquireLoop_contention_none l inter now hcont fuel s now hb

theorem claim_C9_zero_wait_timeout_witness :
    (storeGet wStoreOther 0 ((newLock "a" 1 "t").lock_key)).isSome = true ∧
      ((∀ blocking fuel s now,
          (newLock "a" 1 "t").acquire blocking (some 0) wInter fuel s now =
            (newLock "a" 1 "t").acquire blocking none wInter fuel s now) ∧
        (newLock "a" 1 "t").acquire true (some 0) wInter 7 wStoreOther 0 =
          none) :=
  ⟨by decide,
    (claim_C9_zero_wait_timeout (newLock "a" 1 "t") wInter).1,
    (claim_C9_zero_wait_timeout (newLock "a" 1 "t") wInter).2 wInterCont 7
      wStoreOther 0 (by decide)⟩

/-! Lemmas for the scoped use and the concurrent system. -/

lemma acquireLoop_none_success_shape (l : RedisDistributedLock)
    (inter : Store → Nat → Store) (start : Nat) :
    ∀ fuel s now r, acquireLoop l true none inter start fuel s now = some r →
      r.1 = { l with acquired := true } ∧ r.2.1 = true := by
  intro fuel
  induction fuel with
  | zero => intro s now r h; exact Option.noConfusion h
  | succ k ih =>
      intro s now r h
      cases hg : (storeGet s now l.lock_key).isSome with
      | true =>
          rw [acquireLoop_busy_step l true none inter start k s now hg] at h
          simp [timeoutCheck_none] at h
          exact ih (inter s now) (now + 1) r h
      | false =>
          have hf : storeGet s now l.lock_key = none :=
            Option.not_isSome_iff_eq_none.mp (by simp [hg])
          rw [acquireLoop_free_step l true none inter start k s now hf] at h
          injection h with h2
          subst h2
          exact ⟨rfl, rfl⟩

lemma aenter_some (l : RedisDistributedLock) (inter : Store → Nat → Store)
    (fuel : Nat) (s : Store) (now : Nat)
    (r : RedisDistributedLock × Store × Nat)
    (h : l.aenter inter fuel s now = some r) :
    r.1 = { l with acquired := true } ∧ r.1.acquired = true := by
  unfold RedisDistributedLock.aenter RedisDistributedLock.acquire at h
  cases hq : acquireLoop l true none inter now fuel s now with
  | none =>
      rw [hq] at h
      exact Option.noConfusion h
  | some q =>
      rw [hq] at h
      simp at h
      obtain ⟨h1, _⟩ := acquireLoop_none_success_shape l inter now fuel s now q hq
      have hr1 : r.1 = q.1 := by rw [← h]
      exact ⟨hr1.trans h1, by rw [hr1, h1]⟩

/-- Lemma: `scopedUse` always post-composes the body with `release` of the handle
returned by entry, whatever the exit kind (the exception argument of
`__aexit__` is ignored). -/
lemma scopedUse_eq (l : RedisDistributedLock) (inter : Store → Nat → Store)
    (fuel : Nat) (s : Store) (now : Nat) (body : ScopedBody) :
    scopedUse l inter fuel s now body =
      (l.aenter inter fuel s now).map (fun r =>
        ((r.1.release (body r.1 r.2.1 r.2.2).1 (body r.1 r.2.1 r.2.2).2.1).1,
          (r.1.release (body r.1 r.2.1 r.2.2).1 (body r.1 r.2.1 r.2.2).2.1).2,
          (body r.1 r.2.1 r.2.2).2.2)) := by
  unfold scopedUse
  cases l.aenter inter fuel s now with
  | none => rfl
  | some r => rfl

/-- Claim C5 — scoped use releases on every exit path: `__aexit__` coincides
with `release` and ignores the exception information; entry returns only a
handle with `acquired = true`; after any completed `scopedUse` the final
handle has `acquired = false` (release ran); and two bodies with identical
store/time effects but different exit kinds (normal vs error vs
cancellation) produce the identical final handle and store. -/
theorem claim_C5_scoped_use_releases (l : RedisDistributedLock)
    (inter : Store → Nat → Store) (fuel : Nat) (s : Store) (now : Nat) :
    (∀ s2 n2 e1 e2, l.aexit s2 n2 e1 = l.release s2 n2 ∧
        l.aexit s2 n2 e1 = l.aexit s2 n2 e2) ∧
      (∀ r, l.aenter inter fuel s now = some r → r.1.acquired = true) ∧
      (∀ body q, scopedUse l inter fuel s now body = some q →
        q.1.acquired = false) ∧
      (∀ (b1 b2 : ScopedBody),
        (∀ lk st n, (b1 lk st n).1 = (b2 lk st n).1 ∧
          (b1 lk st n).2.1 = (b2 lk st n).2.1) →
        ∀ q1 q2, scopedUse l inter fuel s now b1 = some q1 →
          scopedUse l inter fuel s now b2 = some q2 →
          q1.1 = q2.1 ∧ q1.2.1 = q2.2.1) := by
  refine ⟨fun s2 n2 e1 e2 => ⟨rfl, rfl⟩,
    fun r h => (aenter_some l inter fuel s now r h).2, ?_, ?_⟩
  · intro body q h
    rw [scopedUse_eq] at h
    cases ha : l.aenter inter fuel s now with
    | none =>
        rw [ha] at h
        exact Option.noConfusion h
    | some r =>
        rw [ha] at h
        simp at h
        have hq1 : q.1 =
            (r.1.release (body r.1 r.2.1 r.2.2).1
              (body r.1 r.2.1 r.2.2).2.1).1 := by
          rw [← h]
        rw [hq1]
        exact release_acquired_false _ _ _
  · intro b1 b2 hb q1 q2 h1 h2
    rw [scopedUse_eq] at h1 h2
    cases ha : l.aenter inter fuel s now with
    | none =>
        rw [ha] at h1
        exact Option.noConfusion h1
    | some r =>
        rw [ha] at h1 h2
        simp at h1 h2
        obtain hfst := (hb r.1 r.2.1 r.2.2).1
        obtain hsnd := (hb r.1 r.2.1 r.2.2).2
        rw [← h1, ← h2]
        rw [hfst, hsnd]
        exact ⟨rfl, rfl⟩

theorem claim_C5_scoped_use_releases_witness :
    ((newLock "a" 1 "t").aenter wInter 1 emptyStore 0).isSome = true ∧
      ((∀ s2 n2 e1 e2,
          (newLock "a" 1 "t").aexit s2 n2 e1 =
              (newLock "a" 1 "t").release s2 n2 ∧
            (newLock "a" 1 "t").aexit s2 n2 e1 =
              (newLock "a" 1 "t").aexit s2 n2 e2) ∧
        (∀ r, (newLock "a" 1 "t").aenter wInter 1 emptyStore 0 = some r →
          r.1.acquired = true) ∧
        (∀ body q, scopedUse (newLock "a" 1 "t") wInter 1 emptyStore 0 body =
            some q → q.1.acquired = false) ∧
        (∀ (b1 b2 : ScopedBody),
          (∀ lk st n, (b1 lk st n).1 = (b2 lk st n).1 ∧
            (b1 lk st n).2.1 = (b2 lk st n).2.1) →
          ∀ q1 q2,
            scopedUse (newLock "a" 1 "t") wInter 1 emptyStore 0 b1 = some q1 →
            scopedUse (newLock "a" 1 "t") wInter 1 emptyStore 0 b2 = some q2 →
            q1.1 = q2.1 ∧ q1.2.1 = q2.2.1)) :=
  ⟨by decide,
    claim_C5_scoped_use_releases (newLock "a" 1 "t") wInter 1 emptyStore 0⟩

lemma sysStep_lock_fields {m : Nat} {st st2 : SysState m}
    (h : SysStep st st2) (i : Fin m) :
    (st2.locks i).lock_value = (st.locks i).lock_value ∧
      (st2.locks i).lock_key = (st.locks i).lock_key := by
  cases h with
  | attempt j =>
      unfold sysAttempt
      by_cases hij : i = j
      · subst hij
        simp [Function.update_same]
        exact ⟨(tryAcquire_lock_fields _ _ _).2.1,
          (tryAcquire_lock_fields _ _ _).1⟩
      · simp [Function.update_noteq hij]
  | rel j =>
      unfold sysRelease
      by_cases hij : i = j
      · subst hij
        simp [Function.update_same]
        exact ⟨(release_lock_fields _ _ _).2.1, (release_lock_fields _ _ _).1⟩
      · simp [Function.update_noteq hij]
  | tick => exact ⟨rfl, rfl⟩

lemma tokensDistinct_step {m : Nat} {st st2 : SysState m}
    (h : SysStep st st2) (hd : TokensDistinct st) : TokensDistinct st2 := by
  intro i j hij
  rw [(sysStep_lock_fields h i).1, (sysStep_lock_fields h j).1]
  exact hd i j hij

lemma tokensDistinct_reachable {m : Nat} {init st : SysState m}
    (h : SysReachable init st) (hd : TokensDistinct init) :
    TokensDistinct st := by
  induction h with
  | refl => exact hd
  | tail h1 hstep ih => exact tokensDistinct_step hstep ih

/-- Claim C1 — mutual exclusion: in every state reachable by interleaving
atomic acquire attempts, releases and clock ticks from an initial state
whose handles carry pairwise distinct fresh tokens, at most one handle per
key both has `acquired = true` and owns an unexpired store entry (one whose
stored value is that handle's token); so of any set of concurrent acquire
calls on one key, at most one holds before the holder releases or its lease
expires. -/
theorem claim_C1_mutual_exclusion {m : Nat} (init st : SysState m)
    (hreach : SysReachable init st) (htok : TokensDistinct init) :
    ∀ i j : Fin m, (st.locks i).lock_key = (st.locks j).lock_key →
      holdsLock st (st.locks i) → holdsLock st (st.locks j) → i = j := by
  intro i j hkey hi hj
  by_contra hij
  have hd := tokensDistinct_reachable hreach htok
  have h2 := hj.2
  rw [← hkey] at h2
  have hv : (st.locks i).lock_value = (st.locks j).lock_value :=
    Option.some.inj (hi.2.symm.trans h2)
  exact hd i j hij hv

theorem claim_C1_mutual_exclusion_witness :
    TokensDistinct wInit ∧
      (∀ i j : Fin 2,
        ((sysAttempt wInit 0).locks i).lock_key =
            ((sysAttempt wInit 0).locks j).lock_key →
        holdsLock (sysAttempt wInit 0) ((sysAttempt wInit 0).locks i) →
        holdsLock (sysAttempt wInit 0) ((sysAttempt wInit 0).locks j) →
        i = j) :=
  ⟨by unfold TokensDistinct; decide,
    claim_C1_mutual_exclusion wInit (sysAttempt wInit 0)
      (Relation.ReflTransGen.single (SysStep.attempt wInit 0))
      (by unfold TokensDistinct; decide)⟩
